import Mathlib

/-!
Verification development for the crossref-rs query-construction and
date-normalization core (src/query/mod.rs, src/query/types.rs,
src/response/work.rs).

The Rust code is shallowly embedded: enums become inductive types, pure
functions become Lean functions, fallible code returns `Except`, and a
runtime panic of a library call is modelled as `Except.error` carrying the
panic message.
-/

namespace Crossref

/- ===== chrono::NaiveDate (external dependency, modelled from its
   documented interface) ===== -/

/-- Gregorian leap-year rule, as used by chrono's `YearFlags::from_year`. -/
def isLeapYear (y : Int) : Bool :=
  y % 4 == 0 && (y % 100 != 0 || y % 400 == 0)

/-- Number of days of month `m` (1-12) of year `y`; 0 for any other `m`. -/
def daysInMonth (y : Int) (m : Nat) : Nat :=
  match m with
  | 1 => 31
  | 2 => if isLeapYear y then 29 else 28
  | 3 => 31
  | 4 => 30
  | 5 => 31
  | 6 => 30
  | 7 => 31
  | 8 => 31
  | 9 => 30
  | 10 => 31
  | 11 => 30
  | 12 => 31
  | _ => 0

/-- Model of `chrono::NaiveDate`: a calendar date. Constructed only through
`from_ymd_opt`, which enforces validity. -/
structure NaiveDate where
  year : Int
  month : Nat
  day : Nat
deriving DecidableEq, Repr

/-- Model of `chrono::NaiveDate::from_ymd_opt`: returns `none` unless
`(y, m, d)` is a valid calendar date with `y` in chrono's supported year
range `MIN_YEAR ..= MAX_YEAR` (`i32::MIN >> 13` to `i32::MAX >> 13`).
Month 0 and day 0 are invalid. -/
def NaiveDate.from_ymd_opt (y : Int) (m d : Nat) : Option NaiveDate :=
  if -262144 ≤ y ∧ y ≤ 262143 ∧ 1 ≤ m ∧ m ≤ 12 ∧ 1 ≤ d ∧ d ≤ daysInMonth y m
  then some ⟨y, m, d⟩
  else none

/-- Model of `chrono::NaiveDate::from_ymd`, which is
`from_ymd_opt(y, m, d).expect("invalid or out-of-range date")`: it panics
(modelled as `Except.error` with the panic message) on an invalid or
out-of-range date. -/
def NaiveDate.from_ymd (y : Int) (m d : Nat) : Except String NaiveDate :=
  match NaiveDate.from_ymd_opt y m d with
  | some dt => .ok dt
  | none => .error "invalid or out-of-range date"

/-- Rust `u32 as i32` cast (two's-complement wrap), applied to the year. -/
def u32_as_i32 (n : Nat) : Int :=
  if n < 2147483648 then (n : Int) else (n : Int) - 4294967296

/- ===== src/response/work.rs : DateParts ===== -/

/-- Embeds `DateField` (src/response/work.rs): a single date, a from/to
range, or a multi-date list. -/
inductive DateField where
  | Single (d : NaiveDate)
  | Range (fromDate toDate : NaiveDate)
  | Multi (ds : List NaiveDate)
deriving DecidableEq, Repr

/-- Embeds `DateParts` (src/response/work.rs): a nested array of optional
numbers, `Vec<Vec<Option<u32>>>`. -/
abbrev DateParts := List (List (Option Nat))

/-- Embeds the nested helper `naive` inside `DateParts::as_date`. The Rust
body indexes `v` by length and applies the `?` operator to each element
before calling `NaiveDate::from_ymd`; a `None` element therefore returns
`None` without reaching `from_ymd`, while a present year with the hardcoded
month 0 / day 0 (lengths 1 and 2) reaches `from_ymd` and can panic. The
outer `Except` layer carries that panic. -/
def naive (v : List (Option Nat)) : Except String (Option NaiveDate) :=
  match v with
  | [] => .ok none
  | [y] =>
    match y with
    | none => .ok none
    | some y =>
      match NaiveDate.from_ymd (u32_as_i32 y) 0 0 with
      | .ok d => .ok (some d)
      | .error e => .error e
  | [y, m] =>
    match y, m with
    | some y, some m =>
      match NaiveDate.from_ymd (u32_as_i32 y) m 0 with
      | .ok d => .ok (some d)
      | .error e => .error e
    | _, _ => .ok none
  | [y, m, d] =>
    match y, m, d with
    | some y, some m, some d =>
      match NaiveDate.from_ymd (u32_as_i32 y) m d with
      | .ok d => .ok (some d)
      | .error e => .error e
    | _, _, _ => .ok none
  | _ => .ok none

/-- Embeds the `collect::<Option<Vec<_>>>()` over `self.0.iter().map(naive)`
in the multi-date branch of `DateParts::as_date`: elements are evaluated
left to right, the first inner `None` short-circuits the whole collection
to `None` (later elements are not evaluated), and a panic of an evaluated
element propagates. -/
def collectNaive (l : List (List (Option Nat))) : Except String (Option (List NaiveDate)) :=
  match l with
  | [] => .ok (some [])
  | x :: xs =>
    match naive x with
    | .error e => .error e
    | .ok none => .ok none
    | .ok (some d) =>
      match collectNaive xs with
      | .error e => .error e
      | .ok none => .ok none
      | .ok (some ds) => .ok (some (d :: ds))

/-- Embeds `DateParts::as_date` (src/response/work.rs lines 63-89): match on
the outer length; 0 gives no date, 1 gives Single, 2 gives Range, anything
longer gives Multi over all inner sequences. The `?` operator on `naive`
turns an inner `None` into the overall `None`; a panic raised inside
`naive` (from `NaiveDate::from_ymd`) aborts the whole call and is modelled
by `Except.error`. -/
def DateParts.as_date (dp : DateParts) : Except String (Option DateField) :=
  match dp with
  | [] => .ok none
  | [a] =>
    match naive a with
    | .error e => .error e
    | .ok none => .ok none
    | .ok (some d) => .ok (some (.Single d))
  | [a, b] =>
    match naive a with
    | .error e => .error e
    | .ok none => .ok none
    | .ok (some d1) =>
      match naive b with
      | .error e => .error e
      | .ok none => .ok none
      | .ok (some d2) => .ok (some (.Range d1 d2))
  | l =>
    match collectNaive l with
    | .error e => .error e
    | .ok none => .ok none
    | .ok (some ds) => .ok (some (.Multi ds))

/- ===== src/query/mod.rs : parameters ===== -/

/-- Embeds the provided method `CrossrefQueryParam::param`: `key=value` when
a value is present, the bare key otherwise. -/
def paramOfKV (key : String) (value : Option String) : String :=
  match value with
  | some v => key ++ "=" ++ v
  | none => key

/-- Embeds Rust's `Vec::join(sep)`: elements concatenated with `sep`
between consecutive elements. -/
def joinSep (sep : String) (l : List String) : String :=
  match l with
  | [] => ""
  | [x] => x
  | x :: xs => x ++ sep ++ joinSep sep xs

/-- Embeds `Order` (src/query/mod.rs): ascending or descending. -/
inductive Order where
  | Asc
  | Desc
deriving DecidableEq, Repr

/-- Embeds `Order::as_str`. -/
def Order.as_str (o : Order) : String :=
  match o with
  | .Asc => "asc"
  | .Desc => "desc"

/-- Embeds `CrossrefQueryParam::param_key` for `Order`. -/
def Order.param_key (_ : Order) : String := "order"

/-- Embeds `CrossrefQueryParam::param_value` for `Order`. -/
def Order.param_value (o : Order) : Option String := some o.as_str

/-- Embeds the derived `param` for `Order`. -/
def Order.param (o : Order) : String := paramOfKV o.param_key o.param_value

/-- Embeds `Sort` (src/query/mod.rs); named `SortField` because `Sort` is a
reserved word in Lean. -/
inductive SortField where
  | Score
  | Updated
  | Deposited
  | Indexed
  | Published
  | PublishedPrint
  | PublishedOnline
  | Issued
  | IsReferencedByCount
  | ReferenceCount
deriving DecidableEq, Repr

/-- Embeds `Sort::as_str` (src/query/mod.rs lines 97-112), including the
literal `"is-reference-by-count"` for `IsReferencedByCount`. -/
def SortField.as_str (s : SortField) : String :=
  match s with
  | .Score => "score"
  | .Updated => "updated"
  | .Deposited => "deposited"
  | .Indexed => "indexed"
  | .Published => "published"
  | .PublishedPrint => "published-print"
  | .PublishedOnline => "published-online"
  | .Issued => "issued"
  | .IsReferencedByCount => "is-reference-by-count"
  | .ReferenceCount => "reference-count"

/-- Embeds `CrossrefQueryParam::param_key` for `Sort`. -/
def SortField.param_key (_ : SortField) : String := "sort"

/-- Embeds `CrossrefQueryParam::param_value` for `Sort`. -/
def SortField.param_value (s : SortField) : Option String := some s.as_str

/-- Embeds the derived `param` for `Sort`. -/
def SortField.param (s : SortField) : String := paramOfKV s.param_key s.param_value

/-- Embeds `ResultControl` (src/query/mod.rs): the four pagination modes. -/
inductive ResultControl where
  | Rows (rows : Nat)
  | Offset (offset : Nat)
  | RowsOffset (rows offset : Nat)
  | Sample
deriving DecidableEq, Repr

/-- Embeds `CrossrefQueryParam::param_key` for `ResultControl`
(src/query/mod.rs lines 133-140): note the `RowsOffset` key is the whole
string `rows=<rows>`. -/
def ResultControl.param_key (rc : ResultControl) : String :=
  match rc with
  | .Rows _ => "rows"
  | .Offset _ => "offset"
  | .RowsOffset rows _ => "rows=" ++ Nat.repr rows
  | .Sample => "sample"

/-- Embeds `CrossrefQueryParam::param_value` for `ResultControl`
(src/query/mod.rs lines 142-151): the `RowsOffset` value is the whole
string `offset=<offset>`; `Sample` has no value. -/
def ResultControl.param_value (rc : ResultControl) : Option String :=
  match rc with
  | .Rows r => some (Nat.repr r)
  | .Offset r => some (Nat.repr r)
  | .RowsOffset _ offset => some ("offset=" ++ Nat.repr offset)
  | .Sample => none

/-- Embeds the derived `param` for `ResultControl`. -/
def ResultControl.param (rc : ResultControl) : String :=
  paramOfKV rc.param_key rc.param_value

/- ===== src/query/mod.rs : routes ===== -/

/-- Embeds `ErrorKind::InvalidTypeName` from the crate's error module (the
only error constructor reachable from the embedded code). -/
inductive ErrorKind where
  | invalidTypeName (name : String)
deriving DecidableEq, Repr

/-- Embeds `Component` (src/query/mod.rs): the six top-level resources. -/
inductive Component where
  | Works
  | Funders
  | Prefixes
  | Members
  | Types
  | Journals
deriving DecidableEq, Repr

/-- Embeds `Component::as_str`. -/
def Component.as_str (c : Component) : String :=
  match c with
  | .Works => "works"
  | .Funders => "funders"
  | .Prefixes => "prefixes"
  | .Members => "members"
  | .Types => "types"
  | .Journals => "journals"

/-- Embeds `CrossrefRoute::route` for `Component` (src/query/mod.rs lines
185-189): always `Ok("/<kind>")`. -/
def Component.route (c : Component) : Except ErrorKind String :=
  .ok ("/" ++ c.as_str)

/-- Embeds `ResourceComponent` (src/query/mod.rs): a single component or a
parent component combined with an identifier. -/
inductive ResourceComponent where
  | Single (c : Component)
  | Combined (primary : Component) (identifier : String)
deriving DecidableEq, Repr

/-- Embeds `CrossrefRoute::route` for `ResourceComponent` (src/query/mod.rs
lines 202-217): `format!("{}/{}{}", primary.route()?, identifier,
Component::Works.route()?)`. -/
def ResourceComponent.route (rc : ResourceComponent) : Except ErrorKind String :=
  match rc with
  | .Single c => c.route
  | .Combined primary identifier =>
    match primary.route with
    | .error e => .error e
    | .ok pr =>
      match Component.Works.route with
      | .error e => .error e
      | .ok wr => .ok (pr ++ "/" ++ identifier ++ wr)

/- ===== src/query/mod.rs : filters and fragments ===== -/

/-- Data of a `ParamFragment` implementer (src/query/mod.rs lines 236-246):
a filter is identified to the renderer only through its `key` and optional
`value` strings, so a filter is modelled by that pair. -/
structure FragmentData where
  key : String
  value : Option String
deriving DecidableEq, Repr

/-- Embeds the provided method `ParamFragment::fragment`: `key:value` when
a value is present, the bare key otherwise. -/
def fragmentOf (f : FragmentData) : String :=
  match f.value with
  | some v => f.key ++ ":" ++ v
  | none => f.key

/-- Embeds `CrossrefQueryParam::param_key` for `Vec<T: Filter>`
(src/query/mod.rs lines 221-234): the aggregate key is always `filter`. -/
def filterParamKey (_ : List FragmentData) : String := "filter"

/-- Embeds `CrossrefQueryParam::param_value` for `Vec<T: Filter>`: every
filter's fragment, joined by `,` (always `Some`, even for the empty
vector). -/
def filterParamValue (fs : List FragmentData) : Option String :=
  some (joinSep "," (fs.map fragmentOf))

/-- Embeds the derived `param` for `Vec<T: Filter>`. -/
def filterParam (fs : List FragmentData) : String :=
  paramOfKV (filterParamKey fs) (filterParamValue fs)

/-- Model of Rust's `str::split(',')` at the character level: splitting on
every comma, keeping empty pieces ("" splits to [""]). -/
def splitCommaChars (l : List Char) : List (List Char) :=
  match l with
  | [] => [[]]
  | c :: cs =>
    match splitCommaChars cs with
    | [] => [[]]
    | h :: t => if c = ',' then [] :: h :: t else (c :: h) :: t

/-- Model of Rust's `str::split(',')` on strings. -/
def splitComma (s : String) : List String :=
  (splitCommaChars s.data).map (fun l => String.mk l)

/- ===== src/query/types.rs : the work-type tag ===== -/

/-- Embeds the enum `Type` (src/query/types.rs); named `WorkType` because
`Type` is a reserved word in Lean. -/
inductive WorkType where
  | BookSection
  | Monograph
  | Report
  | PeerReview
  | BookTrack
  | JournalArticle
  | BookPart
  | Other
  | Book
  | JournalVolume
  | BookSet
  | ReferenceEntry
  | ProceedingsArticle
  | Journal
  | Component
  | BookChapter
  | ProceedingsSeries
  | ReportSeries
  | Proceedings
  | Standard
  | ReferenceBook
  | PostedContent
  | JournalIssue
  | Dissertation
  | Dataset
  | BookSeries
  | EditedBook
  | StandardSeries
deriving DecidableEq, Repr

/-- Embeds `Type::id` (src/query/types.rs lines 82-114): the kebab-case
identifier string of each variant. -/
def WorkType.id (t : WorkType) : String :=
  match t with
  | .BookSection => "book-section"
  | .Monograph => "monograph"
  | .Report => "report"
  | .PeerReview => "peer-review"
  | .BookTrack => "book-track"
  | .JournalArticle => "journal-article"
  | .BookPart => "book-part"
  | .Other => "other"
  | .Book => "book"
  | .JournalVolume => "journal-volume"
  | .BookSet => "book-set"
  | .ReferenceEntry => "reference-entry"
  | .ProceedingsArticle => "proceedings-article"
  | .Journal => "journal"
  | .Component => "component"
  | .BookChapter => "book-chapter"
  | .ProceedingsSeries => "proceedings-series"
  | .ReportSeries => "report-series"
  | .Proceedings => "proceedings"
  | .Standard => "standard"
  | .ReferenceBook => "reference-book"
  | .PostedContent => "posted-content"
  | .JournalIssue => "journal-issue"
  | .Dissertation => "dissertation"
  | .Dataset => "dataset"
  | .BookSeries => "book-series"
  | .EditedBook => "edited-book"
  | .StandardSeries => "standard-series"

/-- Embeds `impl FromStr for Type` (src/query/types.rs lines 116-154): a
string match over the defined identifier strings; any other string yields
`Err(ErrorKind::InvalidTypeName { name })` carrying the offending input.
The Rust `match` on `&str` is an equality chain, written here as a chain of
conditionals. -/
def WorkType.from_str (s : String) : Except ErrorKind WorkType :=
  if s = "book-section" then .ok .BookSection
  else if s = "monograph" then .ok .Monograph
  else if s = "report" then .ok .Report
  else if s = "peer-review" then .ok .PeerReview
  else if s = "book-track" then .ok .BookTrack
  else if s = "journal-article" then .ok .JournalArticle
  else if s = "book-part" then .ok .BookPart
  else if s = "other" then .ok .Other
  else if s = "book" then .ok .Book
  else if s = "journal-volume" then .ok .JournalVolume
  else if s = "book-set" then .ok .BookSet
  else if s = "reference-entry" then .ok .ReferenceEntry
  else if s = "proceedings-article" then .ok .ProceedingsArticle
  else if s = "journal" then .ok .Journal
  else if s = "component" then .ok .Component
  else if s = "book-chapter" then .ok .BookChapter
  else if s = "proceedings-series" then .ok .ProceedingsSeries
  else if s = "report-series" then .ok .ReportSeries
  else if s = "proceedings" then .ok .Proceedings
  else if s = "standard" then .ok .Standard
  else if s = "reference-book" then .ok .ReferenceBook
  else if s = "posted-content" then .ok .PostedContent
  else if s = "journal-issue" then .ok .JournalIssue
  else if s = "dissertation" then .ok .Dissertation
  else if s = "dataset" then .ok .Dataset
  else if s = "book-series" then .ok .BookSeries
  else if s = "edited-book" then .ok .EditedBook
  else if s = "standard-series" then .ok .StandardSeries
  else .error (.invalidTypeName s)

/- ===== src/query/mod.rs : topic formatting ===== -/

/-- Model of Rust's `str::split(pred)` at the character level: splitting at
every character satisfying `p`, keeping empty pieces. -/
def splitPred (p : Char → Bool) (l : List Char) : List (List Char) :=
  match l with
  | [] => [[]]
  | c :: cs =>
    match splitPred p cs with
    | [] => [[]]
    | h :: t => if p c then [] :: h :: t else (c :: h) :: t

/-- Model of Rust's `str::split_whitespace` at the character level: per its
documentation it is `split(char::is_whitespace)` with empty pieces
discarded. Lean's `Char.isWhitespace` (space, tab, newline, carriage
return) stands in for Unicode White_Space; the run-collapsing theorem below
is proved for an arbitrary separator predicate, so nothing depends on the
exact whitespace set. -/
def splitWsChars (l : List Char) : List (List Char) :=
  (splitPred Char.isWhitespace l).filter (fun w => !w.isEmpty)

/-- Embeds `format_query` (src/query/mod.rs lines 298-304): split the topic
on whitespace and join the pieces with `+`. -/
def format_query (s : String) : String :=
  joinSep "+" ((splitWsChars s.data).map (fun l => String.mk l))

/-- Embeds `format_queries` (src/query/mod.rs lines 308-314): format each
topic and join the results with `+`. -/
def format_queries (ts : List String) : String :=
  joinSep "+" (ts.map format_query)

/-- Specification-side formulation of whitespace folding (spec 4.5): the
maximal runs of non-separator characters of the input, in order. Joining
these runs with a single `+` is exactly "each run of internal whitespace is
collapsed and replaced by a single `+`". Written independently of
`splitPred` so that agreement with the code is a real theorem. -/
def wordRuns (p : Char → Bool) (cs : List Char) : List (List Char) :=
  match hdw : cs.dropWhile p with
  | [] => []
  | c :: rest =>
    (c :: rest.takeWhile (fun x => !p x)) :: wordRuns p (rest.dropWhile (fun x => !p x))
termination_by cs.length
decreasing_by
  have h1 : (rest.dropWhile (fun x => !p x)).length ≤ rest.length :=
    (List.dropWhile_sublist _).length_le
  have h2 : (cs.dropWhile p).length ≤ cs.length :=
    (List.dropWhile_sublist _).length_le
  rw [hdw] at h2
  simp only [List.length_cons] at h2
  omega

/- ===== Query composer (spec 4.5), modelled from the spec ===== -/

/-- Modelled from the spec: the works query type that owns the composer
lives in src/query/works.rs, which is not among the given sources; only its
parameter renderers (src/query/mod.rs) are. A query holds free-text
topics, an ordered filter sequence, an optional sort field, an optional
order and an optional pagination control (spec 3, 4.5). -/
structure WorksQueryModel where
  queries : List String
  filters : List FragmentData
  sort : Option SortField
  order : Option Order
  resultControl : Option ResultControl

/-- Modelled from the spec: the composer renders parameters "in a fixed
canonical order (filters, then sort field, then sort order, then
pagination)" and each absent part contributes nothing; in particular
"empty filter sequences must render as no parameter at all (omit, do not
emit `filter=`)" (spec 4.2, 4.5). The free-text topic parameter is
rendered from `format_queries` (spec 4.5). Each entry is the key/value
pair handed to `CrossrefQueryParam::param`. -/
def WorksQueryModel.paramsKV (q : WorksQueryModel) : List (String × Option String) :=
  (if q.queries.isEmpty then [] else [("query", some (format_queries q.queries))])
    ++ (if q.filters.isEmpty then []
        else [(filterParamKey q.filters, filterParamValue q.filters)])
    ++ (match q.sort with
        | some s => [(s.param_key, s.param_value)]
        | none => [])
    ++ (match q.order with
        | some o => [(o.param_key, o.param_value)]
        | none => [])
    ++ (match q.resultControl with
        | some rc => [(rc.param_key, rc.param_value)]
        | none => [])

/-- Modelled from the spec: the rendered parameter strings, via the
`CrossrefQueryParam::param` renderer from src/query/mod.rs. -/
def WorksQueryModel.params (q : WorksQueryModel) : List String :=
  q.paramsKV.map (fun kv => paramOfKV kv.1 kv.2)

/-- Modelled from the spec: `&`-joined parameters behind `?`, with the `?`
omitted entirely when no parameter is present (spec 4.5). -/
def WorksQueryModel.queryString (q : WorksQueryModel) : String :=
  match q.params with
  | [] => ""
  | ps => "?" ++ joinSep "&" ps

/- ===== Claims ===== -/

/-- C1: of the five listed examples, `DateParts::as_date` normalizes
`[[2017,10,11]]` to `Single(2017-10-11)`, `[[null]]` to no date and `[]` to
no date as the spec states; but on `[[2020],[2021]]` and on
`[[2019],[2020],[2021]]` the code does not produce `Range`/`Multi`: it
panics inside `chrono::NaiveDate::from_ymd(year, 0, 0)` (month 0 and day 0
are not a valid calendar date), modelled here as the `Except.error`
carrying chrono's panic message. -/
theorem c1_as_date_examples :
    DateParts.as_date [[some 2017, some 10, some 11]] =
      .ok (some (.Single ⟨2017, 10, 11⟩))
    ∧ DateParts.as_date [[some 2020], [some 2021]] =
      .error "invalid or out-of-range date"
    ∧ DateParts.as_date [[some 2019], [some 2020], [some 2021]] =
      .error "invalid or out-of-range date"
    ∧ DateParts.as_date [[none]] = .ok none
    ∧ DateParts.as_date ([] : DateParts) = .ok none :=
  ⟨rfl, rfl, rfl, rfl, rfl⟩

/-- C2: `DateParts::as_date` is not total: on the input `[[2020]]` — a
standalone year, which the function's own documentation says is allowed —
the code reaches `chrono::NaiveDate::from_ymd(2020, 0, 0)` and panics
("invalid or out-of-range date"), instead of returning a value. -/
theorem c2_as_date_panics_on_year_only :
    DateParts.as_date [[some 2020]] = .error "invalid or out-of-range date" :=
  rfl

/-- C3: on the spec's own all-or-nothing example `[[2019],[null],[2021]]`
the code does not yield the no-date value: it panics while decoding the
first inner sequence `[2019]` (`chrono::NaiveDate::from_ymd(2019, 0, 0)`
with invalid month 0), before the missing year is even reached. The
all-or-nothing collect does behave as claimed on panic-free inputs: with
three full dates where the middle year is absent, the whole normalization
yields no date. -/
theorem c3_all_or_nothing :
    DateParts.as_date [[some 2019], [none], [some 2021]] =
      .error "invalid or out-of-range date"
    ∧ DateParts.as_date
        [[some 2017, some 1, some 1], [none], [some 2018, some 1, some 1]] =
      .ok none :=
  ⟨rfl, rfl⟩

/-- C5: `ResultControl` renders per mode exactly as specified: `Rows(n)`
as `rows=n`, `Offset(n)` as `offset=n`, `RowsOffset{rows, offset}` as the
single combined parameter with key `rows=<rows>` and value
`offset=<offset>` (full string `rows=<rows>=offset=<offset>`), and
`Sample` as the bare key `sample` with no value and no `=`. -/
theorem c5_result_control_rendering :
    (∀ n : Nat, (ResultControl.Rows n).param_key = "rows"
      ∧ (ResultControl.Rows n).param_value = some (Nat.repr n)
      ∧ (ResultControl.Rows n).param = "rows=" ++ Nat.repr n)
    ∧ (∀ n : Nat, (ResultControl.Offset n).param_key = "offset"
      ∧ (ResultControl.Offset n).param_value = some (Nat.repr n)
      ∧ (ResultControl.Offset n).param = "offset=" ++ Nat.repr n)
    ∧ (∀ r o : Nat,
        (ResultControl.RowsOffset r o).param_key = "rows=" ++ Nat.repr r
      ∧ (ResultControl.RowsOffset r o).param_value = some ("offset=" ++ Nat.repr o)
      ∧ (ResultControl.RowsOffset r o).param =
          "rows=" ++ Nat.repr r ++ "=" ++ ("offset=" ++ Nat.repr o))
    ∧ ResultControl.Sample.param_key = "sample"
    ∧ ResultControl.Sample.param_value = none
    ∧ ResultControl.Sample.param = "sample"
    ∧ '=' ∉ "sample".data :=
  ⟨fun _ => ⟨rfl, rfl, rfl⟩, fun _ => ⟨rfl, rfl, rfl⟩,
   fun _ _ => ⟨rfl, rfl, rfl⟩, rfl, rfl, rfl, by decide⟩

/-- C6: every `Combined` selector renders the route
`/<parent>/<identifier>/works`, in particular parent `Funders` with
identifier `10.13039/100000001` renders
`/funders/10.13039/100000001/works`, and every `Single` selector renders
`/<kind>`. -/
theorem c6_routes :
    (∀ (p : Component) (id : String),
      (ResourceComponent.Combined p id).route =
        .ok ("/" ++ p.as_str ++ "/" ++ id ++ "/works"))
    ∧ (ResourceComponent.Combined .Funders "10.13039/100000001").route =
        .ok "/funders/10.13039/100000001/works"
    ∧ (∀ c : Component, (ResourceComponent.Single c).route = .ok ("/" ++ c.as_str)) :=
  ⟨fun _ _ => rfl, rfl, fun _ => rfl⟩

/-- C10: every `Sort` variant renders with key `sort` and value exactly its
`as_str` string (so the parameter is `sort=<s>`), and the times-cited
field renders the literal `"is-reference-by-count"`, not
`"is-referenced-by-count"`. -/
theorem c10_sort_rendering :
    (∀ s : SortField, s.param_key = "sort"
      ∧ s.param_value = some s.as_str
      ∧ s.param = "sort=" ++ s.as_str)
    ∧ SortField.IsReferencedByCount.as_str = "is-reference-by-count"
    ∧ SortField.IsReferencedByCount.as_str ≠ "is-referenced-by-count" :=
  ⟨fun _ => ⟨rfl, rfl, rfl⟩, rfl, by decide⟩

/-- C8: parsing the type tag is a round-trip: for every variant `t`,
`from_str (id t) = Ok t`; and any string that is none of the defined id
strings fails with the typed error `InvalidTypeName` carrying exactly the
offending input — never a silent coercion or a bare string failure. -/
theorem c8_type_roundtrip :
    (∀ t : WorkType, WorkType.from_str t.id = .ok t)
    ∧ (∀ s : String, (∀ t : WorkType, t.id ≠ s) →
        WorkType.from_str s = .error (.invalidTypeName s)) := by
  constructor
  · intro t
    cases t <;> rfl
  · intro s h
    unfold WorkType.from_str
    rw [if_neg (show s ≠ "book-section" from Ne.symm (h .BookSection)),
      if_neg (show s ≠ "monograph" from Ne.symm (h .Monograph)),
      if_neg (show s ≠ "report" from Ne.symm (h .Report)),
      if_neg (show s ≠ "peer-review" from Ne.symm (h .PeerReview)),
      if_neg (show s ≠ "book-track" from Ne.symm (h .BookTrack)),
      if_neg (show s ≠ "journal-article" from Ne.symm (h .JournalArticle)),
      if_neg (show s ≠ "book-part" from Ne.symm (h .BookPart)),
      if_neg (show s ≠ "other" from Ne.symm (h .Other)),
      if_neg (show s ≠ "book" from Ne.symm (h .Book)),
      if_neg (show s ≠ "journal-volume" from Ne.symm (h .JournalVolume)),
      if_neg (show s ≠ "book-set" from Ne.symm (h .BookSet)),
      if_neg (show s ≠ "reference-entry" from Ne.symm (h .ReferenceEntry)),
      if_neg (show s ≠ "proceedings-article" from Ne.symm (h .ProceedingsArticle)),
      if_neg (show s ≠ "journal" from Ne.symm (h .Journal)),
      if_neg (show s ≠ "component" from Ne.symm (h .Component)),
      if_neg (show s ≠ "book-chapter" from Ne.symm (h .BookChapter)),
      if_neg (show s ≠ "proceedings-series" from Ne.symm (h .ProceedingsSeries)),
      if_neg (show s ≠ "report-series" from Ne.symm (h .ReportSeries)),
      if_neg (show s ≠ "proceedings" from Ne.symm (h .Proceedings)),
      if_neg (show s ≠ "standard" from Ne.symm (h .Standard)),
      if_neg (show s ≠ "reference-book" from Ne.symm (h .ReferenceBook)),
      if_neg (show s ≠ "posted-content" from Ne.symm (h .PostedContent)),
      if_neg (show s ≠ "journal-issue" from Ne.symm (h .JournalIssue)),
      if_neg (show s ≠ "dissertation" from Ne.symm (h .Dissertation)),
      if_neg (show s ≠ "dataset" from Ne.symm (h .Dataset)),
      if_neg (show s ≠ "book-series" from Ne.symm (h .BookSeries)),
      if_neg (show s ≠ "edited-book" from Ne.symm (h .EditedBook)),
      if_neg (show s ≠ "standard-series" from Ne.symm (h .StandardSeries))]

/-- C8 witness: the round-trip applied at `journal-article`, and the error
case applied at the undefined tag string `funder`. -/
theorem c8_type_roundtrip_witness :
    WorkType.from_str (WorkType.JournalArticle.id) = .ok .JournalArticle
    ∧ WorkType.from_str "funder" = .error (.invalidTypeName "funder") :=
  ⟨c8_type_roundtrip.1 .JournalArticle,
   c8_type_roundtrip.2 "funder" (fun t => by cases t <;> decide)⟩

/- ===== Lemmas about comma splitting (for the filter round-trip) ===== -/

/-- Char-level counterpart of `Vec::join(",")`, mirroring `joinSep`. -/
def joinCommaChars (xs : List (List Char)) : List Char :=
  match xs with
  | [] => []
  | [x] => x
  | x :: xs => x ++ ',' :: joinCommaChars xs

theorem splitCommaChars_ne_nil (l : List Char) : splitCommaChars l ≠ [] := by
  induction l with
  | nil => simp [splitCommaChars]
  | cons c cs ih =>
    simp only [splitCommaChars]
    cases e : splitCommaChars cs with
    | nil => exact absurd e ih
    | cons h t =>
      by_cases hc : c = ',' <;> simp [hc]

theorem splitCommaChars_of_no_comma (l : List Char) (h : ',' ∉ l) :
    splitCommaChars l = [l] := by
  induction l with
  | nil => rfl
  | cons c cs ih =>
    have hc : c ≠ ',' := fun e => h (e ▸ List.mem_cons_self c cs)
    have hcs : ',' ∉ cs := fun m => h (List.mem_cons_of_mem c m)
    simp only [splitCommaChars, ih hcs]
    simp [hc]

theorem splitCommaChars_append (l m : List Char) (h : ',' ∉ l) :
    splitCommaChars (l ++ ',' :: m) = l :: splitCommaChars m := by
  induction l with
  | nil =>
    simp only [List.nil_append, splitCommaChars]
    cases e : splitCommaChars m with
    | nil => exact absurd e (splitCommaChars_ne_nil m)
    | cons hd t => simp
  | cons c cs ih =>
    have hc : c ≠ ',' := fun e => h (e ▸ List.mem_cons_self c cs)
    have hcs : ',' ∉ cs := fun mem => h (List.mem_cons_of_mem c mem)
    simp only [List.cons_append, splitCommaChars, List.append_eq]
    rw [ih hcs]
    simp [hc]

theorem splitCommaChars_joinCommaChars (xs : List (List Char)) (hne : xs ≠ [])
    (h : ∀ x ∈ xs, ',' ∉ x) :
    splitCommaChars (joinCommaChars xs) = xs := by
  induction xs with
  | nil => exact absurd rfl hne
  | cons x xs ih =>
    cases xs with
    | nil =>
      exact splitCommaChars_of_no_comma x (h x (List.mem_cons_self x []))
    | cons y t =>
      have hx : ',' ∉ x := h x (List.mem_cons_self x _)
      have hrest : ∀ z ∈ y :: t, ',' ∉ z := fun z hz => h z (List.mem_cons_of_mem x hz)
      simp only [joinCommaChars, splitCommaChars_append _ _ hx,
        ih (by simp) hrest]

theorem data_joinSep_comma (ss : List String) :
    (joinSep "," ss).data = joinCommaChars (ss.map String.data) := by
  induction ss with
  | nil => rfl
  | cons x xs ih =>
    cases xs with
    | nil => rfl
    | cons y t =>
      simp only [joinSep, joinCommaChars, List.map_cons, String.data_append, ih,
        List.append_assoc, List.singleton_append]

/-- C7 (amended): for every non-empty sequence of filters none of whose
rendered fragments contains the separator `,`, rendering the aggregate
`filter` value (fragments joined by `,`) and splitting it back on `,`
recovers exactly the original fragments in the original order. The
comma-free hypothesis is necessary: see the counterexample theorem. -/
theorem c7_filter_split_roundtrip (fs : List FragmentData) (hne : fs ≠ [])
    (h : ∀ f ∈ fs, ',' ∉ (fragmentOf f).data) :
    splitComma ((filterParamValue fs).getD "") = fs.map fragmentOf := by
  have hmapne : fs.map fragmentOf ≠ [] := by
    intro e
    exact hne (List.map_eq_nil_iff.mp e)
  have hmem : ∀ x ∈ (fs.map fragmentOf).map String.data, ',' ∉ x := by
    intro x hx
    simp only [List.map_map, List.mem_map] at hx
    obtain ⟨f, hf, rfl⟩ := hx
    exact h f hf
  have hdata : ((filterParamValue fs).getD "").data =
      joinCommaChars ((fs.map fragmentOf).map String.data) := by
    simp only [filterParamValue, Option.getD_some]
    exact data_joinSep_comma (fs.map fragmentOf)
  simp only [splitComma, hdata,
    splitCommaChars_joinCommaChars _ (by simpa using hmapne) hmem]
  simp only [List.map_map]
  have hcomp : ((fun l => (⟨l⟩ : String)) ∘ String.data ∘ fragmentOf) = fragmentOf := by
    funext f
    rfl
  rw [hcomp]

/-- C7 witness: the round-trip theorem applied to the two-filter sequence
`location:NL`, `has-funder`. -/
theorem c7_roundtrip_witness :
    splitComma ((filterParamValue
        [⟨"location", some "NL"⟩, ⟨"has-funder", none⟩]).getD "") =
      List.map fragmentOf [⟨"location", some "NL"⟩, ⟨"has-funder", none⟩] :=
  c7_filter_split_roundtrip
    [⟨"location", some "NL"⟩, ⟨"has-funder", none⟩]
    (by decide) (by decide)

/-- C7 counterexample: the claim as stated fails when a filter's value
itself contains a comma: the single filter rendered `location:Den Haag, NL`
joins to that very string, but splitting on `,` returns two pieces, not the
original one-fragment list. -/
theorem c7_claim_counterexample :
    splitComma ((filterParamValue [⟨"location", some "Den Haag, NL"⟩]).getD "") ≠
      List.map fragmentOf [⟨"location", some "Den Haag, NL"⟩] := by
  decide

/- ===== Lemmas about whitespace splitting (for topic folding) ===== -/

theorem splitPred_ne_nil (p : Char → Bool) (l : List Char) : splitPred p l ≠ [] := by
  induction l with
  | nil => simp [splitPred]
  | cons c cs ih =>
    simp only [splitPred]
    cases e : splitPred p cs with
    | nil => exact absurd e ih
    | cons h t =>
      cases hc : p c <;> simp [hc]

theorem dropWhile_head_false (p : Char → Bool) (cs : List Char) (c : Char)
    (rest : List Char) (e : cs.dropWhile p = c :: rest) : p c = false := by
  induction cs with
  | nil => simp at e
  | cons a l ih =>
    rw [List.dropWhile_cons] at e
    by_cases ha : p a = true
    · rw [if_pos ha] at e
      exact ih e
    · rw [if_neg ha] at e
      cases e
      exact Bool.not_eq_true _ ▸ ha

theorem filter_splitPred_all_sep (p : Char → Bool) (cs : List Char)
    (h : ∀ c ∈ cs, p c = true) :
    (splitPred p cs).filter (fun w => !w.isEmpty) = [] := by
  induction cs with
  | nil => rfl
  | cons c cs ih =>
    have hc : p c = true := h c (List.mem_cons_self c cs)
    cases e : splitPred p cs with
    | nil => exact absurd e (splitPred_ne_nil p cs)
    | cons hd t =>
      simp only [splitPred, e, hc, if_true]
      rw [List.filter_cons_of_neg (by simp)]
      rw [← e]
      exact ih (fun x hx => h x (List.mem_cons_of_mem c hx))

theorem filter_splitPred_sep_append (p : Char → Bool) (ws t : List Char)
    (h : ∀ x ∈ ws, p x = true) :
    (splitPred p (ws ++ t)).filter (fun w => !w.isEmpty) =
      (splitPred p t).filter (fun w => !w.isEmpty) := by
  induction ws with
  | nil => rfl
  | cons w ws ih =>
    have hw : p w = true := h w (List.mem_cons_self w ws)
    cases e : splitPred p (ws ++ t) with
    | nil => exact absurd e (splitPred_ne_nil p _)
    | cons hd tl =>
      simp only [List.cons_append, splitPred, List.append_eq, e, hw, if_true]
      rw [List.filter_cons_of_neg (by simp)]
      rw [← e]
      exact ih (fun x hx => h x (List.mem_cons_of_mem w hx))

theorem splitPred_decomp (p : Char → Bool) (cs : List Char) :
    splitPred p cs =
      cs.takeWhile (fun c => !p c) ::
        (match cs.dropWhile (fun c => !p c) with
          | [] => []
          | _ :: cs' => splitPred p cs') := by
  induction cs with
  | nil => rfl
  | cons c cs ih =>
    cases e : splitPred p cs with
    | nil => exact absurd e (splitPred_ne_nil p cs)
    | cons h t =>
      cases hc : p c with
      | true =>
        simp only [splitPred, e]
        rw [if_pos hc, List.takeWhile_cons_of_neg (by simp [hc]),
          List.dropWhile_cons_of_neg (by simp [hc]), ← e]
      | false =>
        rw [e] at ih
        obtain ⟨ih1, ih2⟩ := List.cons_eq_cons.mp ih
        simp only [splitPred, e]
        rw [if_neg (by simp [hc]), List.takeWhile_cons_of_pos (by simp [hc]),
          List.dropWhile_cons_of_pos (by simp [hc]), ih1, ih2]

theorem filter_splitPred_eq_wordRuns_aux (p : Char → Bool) :
    ∀ (n : Nat) (cs : List Char), cs.length ≤ n →
      (splitPred p cs).filter (fun w => !w.isEmpty) = wordRuns p cs := by
  intro n
  induction n with
  | zero =>
    intro cs hlen
    rw [List.length_eq_zero.mp (Nat.le_zero.mp hlen)]
    rw [wordRuns.eq_def]
    rfl
  | succ n ih =>
    intro cs hlen
    cases e : cs.dropWhile p with
    | nil =>
      rw [wordRuns.eq_def, e]
      exact filter_splitPred_all_sep p cs (List.dropWhile_eq_nil_iff.mp e)
    | cons c rest =>
      have hc : p c = false := dropWhile_head_false p cs c rest e
      have hsplit : cs = cs.takeWhile p ++ (c :: rest) := by
        rw [← e, List.takeWhile_append_dropWhile]
      have htake : ∀ x ∈ cs.takeWhile p, p x = true := fun x hx =>
        List.mem_takeWhile_imp hx
      have hlen2 : (c :: rest).length ≤ cs.length := by
        calc (c :: rest).length = (cs.dropWhile p).length := by rw [e]
        _ ≤ cs.length := (List.dropWhile_sublist p).length_le
      rw [wordRuns.eq_def, e]
      calc (splitPred p cs).filter (fun w => !w.isEmpty)
          = (splitPred p (cs.takeWhile p ++ (c :: rest))).filter (fun w => !w.isEmpty) := by
            rw [← hsplit]
        _ = (splitPred p (c :: rest)).filter (fun w => !w.isEmpty) :=
            filter_splitPred_sep_append p _ _ htake
        _ = (c :: rest.takeWhile (fun x => !p x)) ::
              wordRuns p (rest.dropWhile (fun x => !p x)) := by
            rw [splitPred_decomp p (c :: rest)]
            simp only [List.takeWhile_cons, List.dropWhile_cons, hc, Bool.not_false,
              if_true]
            rw [List.filter_cons_of_pos (by simp)]
            congr 1
            cases e2 : rest.dropWhile (fun x => !p x) with
            | nil =>
              rw [wordRuns.eq_def]
              simp
            | cons d rest' =>
              have hd : p d = true := by
                have := dropWhile_head_false (fun x => !p x) rest d rest' e2
                simpa using this
              have hlen3 : rest'.length ≤ n := by
                have hsub : (d :: rest').length ≤ rest.length := by
                  calc (d :: rest').length = (rest.dropWhile (fun x => !p x)).length := by
                        rw [e2]
                  _ ≤ rest.length := (List.dropWhile_sublist _).length_le
                simp only [List.length_cons] at hsub hlen2
                omega
              have step2 : wordRuns p (d :: rest') = wordRuns p rest' := by
                rw [wordRuns.eq_def, wordRuns.eq_def,
                  List.dropWhile_cons_of_pos hd]
              rw [step2]
              exact ih rest' hlen3

/-- Splitting on a separator predicate and discarding empty pieces (the
code side, Rust's `split_whitespace`) computes exactly the maximal
non-separator runs of the input (the spec side). -/
theorem splitWsChars_eq_wordRuns (cs : List Char) :
    splitWsChars cs = wordRuns Char.isWhitespace cs :=
  filter_splitPred_eq_wordRuns_aux Char.isWhitespace cs.length cs (Nat.le_refl _)

/-- C9: topic formatting folds whitespace: for every topic string the
formatted topic is exactly the maximal whitespace-free runs of the input
joined by a single `+` — i.e. each run of internal whitespace is collapsed
into one `+` — for every sequence of topics each is individually
normalized and joined by `+`, and the topics `"hello   world"` and `"foo"`
combine to `hello+world+foo`. -/
theorem c9_topic_whitespace_folding :
    (∀ s : String, format_query s =
      joinSep "+" ((wordRuns Char.isWhitespace s.data).map (fun l => String.mk l)))
    ∧ (∀ ts : List String, format_queries ts = joinSep "+" (ts.map format_query))
    ∧ format_queries ["hello   world", "foo"] = "hello+world+foo" := by
  refine ⟨fun s => ?_, fun ts => rfl, by decide⟩
  rw [format_query, splitWsChars_eq_wordRuns]

/- ===== Lemmas for the empty-filter claim ===== -/

theorem not_filter_pref_cons (c : Char) (l : List Char) (hc : ('f' == c) = false) :
    (!(("filter".data).isPrefixOf (c :: l))) = true := by
  show (!((['f', 'i', 'l', 't', 'e', 'r']).isPrefixOf (c :: l))) = true
  simp [List.isPrefixOf, hc]

theorem param_head_not_filter (k : String) (v : Option String) (c : Char) (l : List Char)
    (hk : k.data = c :: l) (hc : ('f' == c) = false) :
    (!(("filter".data).isPrefixOf (paramOfKV k v).data)) = true := by
  cases v with
  | none =>
    simp only [paramOfKV, hk]
    exact not_filter_pref_cons c l hc
  | some v =>
    simp only [paramOfKV, String.data_append, hk, List.cons_append]
    exact not_filter_pref_cons c _ hc

theorem rows_key_ne_filter (r : Nat) : (("rows=" ++ Nat.repr r) != "filter") = true := by
  simp only [bne_iff_ne, ne_eq]
  intro heq
  have hd := congrArg String.data heq
  rw [String.data_append] at hd
  injection hd with h1 _
  exact absurd h1 (by decide)

/-- C4: when the filter sequence is empty, the composed query contains no
filter parameter at all: no emitted key is `filter`, and no rendered
parameter string even begins with the characters `filter` — so in
particular the degenerate `filter=` is never emitted. -/
theorem c4_empty_filter_omitted (q : WorksQueryModel) (h : q.filters = []) :
    (q.paramsKV.all (fun kv => kv.1 != "filter")) = true
    ∧ (q.params.all (fun s => !(("filter".data).isPrefixOf s.data))) = true := by
  obtain ⟨qs, fs, so, oo, rc⟩ := q
  obtain rfl : fs = [] := h
  constructor
  · simp only [WorksQueryModel.paramsKV, List.all_append, Bool.and_eq_true, and_assoc]
    refine ⟨?_, ?_, ?_, ?_, ?_⟩
    · cases qs with
      | nil => rfl
      | cons a as => rfl
    · rfl
    · cases so with
      | none => rfl
      | some s => rfl
    · cases oo with
      | none => rfl
      | some o => rfl
    · cases rc with
      | none => rfl
      | some rcv =>
        cases rcv with
        | Rows n => rfl
        | Offset n => rfl
        | Sample => rfl
        | RowsOffset r o =>
          simp only [List.all_cons, List.all_nil, Bool.and_true]
          exact rows_key_ne_filter r
  · simp only [WorksQueryModel.params, WorksQueryModel.paramsKV, List.map_append,
      List.all_append, Bool.and_eq_true, and_assoc]
    refine ⟨?_, ?_, ?_, ?_, ?_⟩
    · cases qs with
      | nil => rfl
      | cons a as =>
        simp only [List.isEmpty_cons, Bool.false_eq_true, if_false, List.map_cons,
          List.map_nil, List.all_cons, List.all_nil, Bool.and_true]
        exact param_head_not_filter "query" _ 'q' _ rfl (by decide)
    · rfl
    · cases so with
      | none => rfl
      | some s =>
        simp only [List.map_cons, List.map_nil, List.all_cons, List.all_nil, Bool.and_true]
        exact param_head_not_filter "sort" _ 's' _ rfl (by decide)
    · cases oo with
      | none => rfl
      | some o =>
        simp only [List.map_cons, List.map_nil, List.all_cons, List.all_nil, Bool.and_true]
        exact param_head_not_filter "order" _ 'o' _ rfl (by decide)
    · cases rc with
      | none => rfl
      | some rcv =>
        cases rcv with
        | Rows n =>
          simp only [List.map_cons, List.map_nil, List.all_cons, List.all_nil, Bool.and_true]
          exact param_head_not_filter "rows" _ 'r' _ rfl (by decide)
        | Offset n =>
          simp only [List.map_cons, List.map_nil, List.all_cons, List.all_nil, Bool.and_true]
          exact param_head_not_filter "offset" _ 'o' _ rfl (by decide)
        | Sample =>
          simp only [List.map_cons, List.map_nil, List.all_cons, List.all_nil, Bool.and_true]
          exact param_head_not_filter "sample" none 's' _ rfl (by decide)
        | RowsOffset r o =>
          simp only [List.map_cons, List.map_nil, List.all_cons, List.all_nil, Bool.and_true]
          refine param_head_not_filter _ _ 'r' (['o', 'w', 's', '='] ++ (Nat.repr r).data)
            ?_ (by decide)
          show ("rows=" ++ Nat.repr r).data = 'r' :: (['o', 'w', 's', '='] ++ (Nat.repr r).data)
          rw [String.data_append]
          rfl

/-- C4 witness: the empty-filter theorem applied to a concrete query with a
topic, a sort, an order and combined pagination, and no filters. -/
theorem c4_empty_filter_omitted_witness :
    ((WorksQueryModel.mk ["machine learning"] [] (some .Score) (some .Asc)
        (some (.RowsOffset 20 40))).paramsKV.all (fun kv => kv.1 != "filter")) = true
    ∧ ((WorksQueryModel.mk ["machine learning"] [] (some .Score) (some .Asc)
        (some (.RowsOffset 20 40))).params.all
          (fun s => !(("filter".data).isPrefixOf s.data))) = true :=
  c4_empty_filter_omitted
    (WorksQueryModel.mk ["machine learning"] [] (some .Score) (some .Asc)
      (some (.RowsOffset 20 40))) rfl

end Crossref
